import Mathlib

/-!
Verification development for the GitHub code-acquisition pipeline
(`fetchGithubCode` in services/githubService.ts).

The remote endpoints (raw-content host, repository-metadata endpoint,
recursive-tree endpoint, and the per-file content transport) are modeled
as an explicit environment of pure oracles: each oracle maps the request
data to the response the remote would give.  The authenticated (base64
contents API) and unauthenticated (raw host) per-file transports both
produce either a decoded body or a failure in the source, so both are
abstracted by a single oracle of type String to Option String.
String lengths model the length checks of the source; all counting is
over characters.
-/

namespace CodeIntoClear

set_option maxRecDepth 4096

/-- JS includes on strings: substring containment. -/
def jsIncludes (s sub : String) : Bool := decide (sub.data <:+: s.data)

/-- JS String.replace with a string pattern: replaces the first occurrence only. -/
def replaceFirstList (pat repl : List Char) : List Char → List Char
  | [] => if pat.isEmpty then repl else []
  | c :: rest =>
    if pat.isPrefixOf (c :: rest) then repl ++ (c :: rest).drop pat.length
    else c :: replaceFirstList pat repl rest

def jsReplaceFirst (s pat repl : String) : String :=
  ⟨replaceFirstList pat.data repl.data s.data⟩

/-- JS toLowerCase, modeled per character. -/
def toLowerStr (s : String) : String := ⟨s.data.map Char.toLower⟩

/-- JS endsWith. -/
def strEndsWith (s suf : String) : Bool := decide (suf.data <:+ s.data)

/-- The extension denylist of isCodeFile in the source. -/
def ignoredExtensions : List String :=
  [".png", ".jpg", ".jpeg", ".gif", ".svg", ".ico", ".pdf", ".zip",
   ".lock", ".json", ".md", ".txt", ".css", ".map", ".mp4", ".mp3",
   ".wav", ".woff", ".woff2", ".ttf", ".eot", ".csv", ".xml"]

/-- The suffix denylist of isCodeFile in the source. -/
def ignoredEndings : List String := [".min.js", ".min.css", ".bundle.js", "-lock.yaml"]

/-- isCodeFile from the source: lowercase the path, reject denylisted suffixes. -/
def isCodeFile (path : String) : Bool :=
  let lower := toLowerStr path
  !(ignoredExtensions.any fun ext => strEndsWith lower ext) &&
  !(ignoredEndings.any fun e => strEndsWith lower e)

/-- The directory denylist of the source. -/
def ignoredDirs : List String :=
  ["node_modules", "dist", "build", ".git", ".github", "coverage",
   "__pycache__", "venv", "bin", "obj", "vendor", "public/assets"]

/-- isIgnoredDir from the source: any denylisted directory name occurring
as a substring of the path. -/
def isIgnoredDir (path : String) : Bool := ignoredDirs.any fun d => jsIncludes path d

def MAX_FILES : Nat := 20
def MAX_SINGLE_FILE_SIZE : Nat := 150000
def MAX_TOTAL_CHARS : Nat := 800000

/-- One entry of the recursive tree listing. -/
structure TreeNode where
  path : String
  typ : String
  size : Option Nat
deriving DecidableEq

/-- The tree filter of Step C in the source: blob nodes that are code files,
not in ignored directories, whose declared size (when present) is strictly
below the per-file cap. -/
def nodePasses (n : TreeNode) : Bool :=
  n.typ == "blob" && isCodeFile n.path && !isIgnoredDir n.path &&
  (match n.size with
   | none => true
   | some s => decide (s < MAX_SINGLE_FILE_SIZE))

/-- The mutable state of the Step D fetch loop. -/
structure FetchState where
  totalChars : Nat
  fetchedFileCount : Nat
  fileContents : List String
deriving DecidableEq

def wrapPre : String := "\n\n--- START OF FILE: "
def wrapMid : String := " ---\n"
def wrapEnd1 : String := "\n--- END OF FILE: "
def wrapEnd2 : String := " ---\n"

/-- The marker-delimited segment pushed for one accepted file. -/
def wrapFile (path text : String) : String :=
  wrapPre ++ path ++ wrapMid ++ text ++ wrapEnd1 ++ path ++ wrapEnd2

/-- The Step D loop of the source: breaks on the file-count cap and the
aggregate cap; a failed fetch (none) or an empty body is JS-falsy and is
skipped; a body over the per-file cap is skipped (continue); otherwise the
wrapped segment is pushed and both counters advance. -/
def fetchLoop (fetch : String → Option String) : List TreeNode → FetchState → FetchState
  | [], st => st
  | f :: rest, st =>
    if MAX_FILES ≤ st.fetchedFileCount then st
    else if MAX_TOTAL_CHARS ≤ st.totalChars then st
    else
      match fetch f.path with
      | none => fetchLoop fetch rest st
      | some text =>
        if text.length = 0 then fetchLoop fetch rest st
        else if MAX_SINGLE_FILE_SIZE < text.length then fetchLoop fetch rest st
        else
          fetchLoop fetch rest
            { totalChars := st.totalChars + text.length,
              fetchedFileCount := st.fetchedFileCount + 1,
              fileContents := st.fileContents ++ [wrapFile f.path text] }

/-- The Truncated field of the header. -/
def truncatedLabel (totalChars : Nat) : String :=
  if MAX_TOTAL_CHARS ≤ totalChars then "Yes (Size Limit)" else "No"

/-- The header line of the assembled bundle. -/
def mkHeader (owner repo : String) (isPrivate : Bool) (count totalChars : Nat) : String :=
  "// Repository: " ++ owner ++ "/" ++ repo ++
  (if isPrivate then " (Private)" else "") ++
  "\n// Analyzed Files: " ++ toString count ++
  "\n// Truncated: " ++ truncatedLabel totalChars ++ "\n"

/-- JS Array.join with the empty separator: plain concatenation. -/
def joinStrings : List String → String
  | [] => ""
  | s :: rest => s ++ joinStrings rest

/-- JS String.split with a single-character separator. -/
def splitOnChar (sep : Char) : List Char → List (List Char)
  | [] => [[]]
  | c :: rest =>
    match splitOnChar sep rest with
    | [] => [[]]
    | g :: gs => if c = sep then [] :: g :: gs else (c :: g) :: gs

/-- pathname.split with slash, then filter(Boolean): drop empty segments. -/
def pathParts (pathname : String) : List String :=
  ((splitOnChar '/' pathname.data).map String.mk).filter fun s => !(s == "")

/-- Outcome of one HTTP fetch against the raw-content host. -/
inductive HttpResult where
  | ok (body : String)
  | notFound
  | failed
deriving DecidableEq

/-- The repository metadata used by the pipeline. -/
structure RepoInfo where
  defaultBranch : Option String
  isPrivate : Bool
deriving DecidableEq

/-- Outcome of the repository-metadata call, by status code class. -/
inductive RepoInfoResult where
  | rateLimited
  | notFound
  | otherError
  | ok (info : RepoInfo)
deriving DecidableEq

/-- The recursive tree listing with the server-side truncation flag. -/
structure TreeData where
  nodes : List TreeNode
  truncated : Bool
deriving DecidableEq

/-- The remote world an acquisition call runs against, as pure oracles. -/
structure Env where
  rawFetch : String → HttpResult
  repoInfo : String → String → RepoInfoResult
  tree : String → String → String → Option TreeData
  fileFetch : String → Option String
  urlPathname : String → Option String

/-- The distinct failures the source can throw, one per throw site. -/
inductive GithubError where
  | urlRequired
  | fileNotFound
  | fileFetchFailed
  | rateLimited
  | repoNotFound
  | apiError
  | treeFetchFailed
  | invalidRepoUrl
  | urlParseError
  | noSuitableFiles
  | noContent
deriving DecidableEq

/-- The raw-URL rewrite of the blob and gist branch in the source. -/
def rewriteRawUrl (url : String) : String :=
  if jsIncludes url "github.com" && !jsIncludes url "gist.github.com" then
    jsReplaceFirst (jsReplaceFirst url "github.com" "raw.githubusercontent.com") "/blob/" "/"
  else if jsIncludes url "gist.github.com" then
    jsReplaceFirst url "gist.github.com" "gist.githubusercontent.com" ++ "/raw"
  else url

/-- fetchGithubCode from the source, over the oracle environment.  The
token parameter only selects which of the two per-file transports the
source uses; both are abstracted by the fileFetch oracle, so it does not
influence the modeled result. -/
def fetchGithubCode (env : Env) (url : String) (_token : Option String) :
    Except GithubError String :=
  if url = "" then .error .urlRequired
  else if jsIncludes url "/blob/" || jsIncludes url "gist.github.com" then
    match env.rawFetch (rewriteRawUrl url) with
    | .ok body => .ok body
    | .notFound => .error .fileNotFound
    | .failed => .error .fileFetchFailed
  else
    match env.urlPathname url with
    | none => .error .urlParseError
    | some pathname =>
      match pathParts pathname with
      | owner :: repo :: _ =>
        (match env.repoInfo owner repo with
        | .rateLimited => .error .rateLimited
        | .notFound => .error .repoNotFound
        | .otherError => .error .apiError
        | .ok info =>
          let branch :=
            match info.defaultBranch with
            | none => "main"
            | some b => if b = "" then "main" else b
          match env.tree owner repo branch with
          | none => .error .treeFetchFailed
          | some treeData =>
            let sortedFiles := treeData.nodes.filter nodePasses
            if sortedFiles.length = 0 then .error .noSuitableFiles
            else
              let fin := fetchLoop env.fileFetch sortedFiles ⟨0, 0, []⟩
              let result :=
                mkHeader owner repo info.isPrivate fin.fetchedFileCount fin.totalChars ++
                joinStrings fin.fileContents
              if result.length < 50 then .error .noContent
              else .ok result)
      | _ => .error .invalidRepoUrl

deriving instance DecidableEq for Except

/-- An inert environment: every remote call fails. -/
def envBase : Env :=
  { rawFetch := fun _ => .failed
    repoInfo := fun _ _ => .otherError
    tree := fun _ _ _ => none
    fileFetch := fun _ => none
    urlPathname := fun _ => none }

/-- Environment for a repository with one qualifying file whose every
per-file fetch fails. -/
def envC2 : Env :=
  { envBase with
    repoInfo := fun _ _ => .ok ⟨some "main", false⟩
    tree := fun _ _ _ => some ⟨[⟨"f.ts", "blob", none⟩], false⟩
    urlPathname := fun u => if u = "https://github.com/a/b" then some "/a/b" else none }

/-- Environment whose raw-content host serves one blob URL. -/
def envC4 : Env :=
  { envBase with
    rawFetch := fun u =>
      if u = "https://raw.githubusercontent.com/o/r/main/x.ts" then .ok "hello-world"
      else .failed }

/-- A 140000-character body: six of these overshoot the aggregate cap. -/
def bigBody140 : String := ⟨List.replicate 140000 'x'⟩

/-- A 200000-character body: over the per-file cap. -/
def bigBody200 : String := ⟨List.replicate 200000 'z'⟩

/-- A body of exactly the per-file cap, 150000 characters. -/
def body150k : String := ⟨List.replicate 150000 'y'⟩

/-- Six qualifying candidates with no declared size. -/
def filesC1 : List TreeNode :=
  [⟨"a", "blob", none⟩, ⟨"b", "blob", none⟩, ⟨"c", "blob", none⟩,
   ⟨"d", "blob", none⟩, ⟨"e", "blob", none⟩, ⟨"f", "blob", none⟩]

/-- Twenty-five qualifying candidates. -/
def filesC3 : List TreeNode := List.replicate 25 ⟨"f", "blob", none⟩

/-- Number of positions at which m occurs as a substring. -/
def countOccur (m : List Char) : List Char → Nat
  | [] => 0
  | c :: rest => (if m <+: (c :: rest) then 1 else 0) + countOccur m rest

/-- The start marker counted by the Analyzed Files property. -/
def startMarker : String := "--- START OF FILE"

def markerChars : List Char := startMarker.data

/-- No occurrence of m spans the boundary between a and b: no proper
split of m has its left part a suffix of a and its right part a
prefix of b. -/
def NoSpan (m a b : List Char) : Prop :=
  ∀ k, k < m.length → 0 < k → ¬((m.take k) <:+ a ∧ (m.drop k) <+: b)

instance noSpanDecidable (m a b : List Char) : Decidable (NoSpan m a b) := by
  unfold NoSpan; infer_instance

theorem prefix_of_append_cases {α : Type} (l u v : List α) (h : l <+: u ++ v) :
    l <+: u ∨ u <+: l := by
  rcases Nat.le_total l.length u.length with hle | hle
  · left
    have h1 : l = (u ++ v).take l.length := List.prefix_iff_eq_take.mp h
    rw [List.take_append_of_le_length hle] at h1
    exact h1 ▸ ⟨u.drop l.length, List.take_append_drop _ u⟩
  · right
    have h1 : l = (u ++ v).take l.length := List.prefix_iff_eq_take.mp h
    have h2 : l.take u.length = u := by
      rw [h1, List.take_take, Nat.min_eq_left hle, List.take_left]
    have h3 : l.take u.length ++ l.drop u.length = l := List.take_append_drop _ l
    rw [h2] at h3
    exact ⟨l.drop u.length, h3⟩

theorem countOccur_append (m a b : List Char) (h : NoSpan m a b) :
    countOccur m (a ++ b) = countOccur m a + countOccur m b := by
  induction a with
  | nil => simp [countOccur]
  | cons c a' ih =>
    have hns : NoSpan m a' b := by
      intro k hk hk0 hc
      exact h k hk hk0 ⟨hc.1.trans (List.suffix_cons c a'), hc.2⟩
    have hiff : m <+: (c :: (a' ++ b)) ↔ m <+: (c :: a') := by
      constructor
      · intro hp
        rcases prefix_of_append_cases m (c :: a') b (by simpa using hp) with h1 | h2
        · exact h1
        · rcases h2 with ⟨w, hw⟩
          cases w with
          | nil => rw [← hw]; simp
          | cons d w' =>
            exfalso
            have hklen : (c :: a').length < m.length := by
              rw [← hw, List.length_append]; simp
            apply h (c :: a').length hklen (by simp)
            constructor
            · rw [← hw, List.take_left]
            · rw [← hw, List.drop_left]
              have hp2 : (c :: a') ++ (d :: w') <+: (c :: a') ++ b := by
                rw [hw]; simpa using hp
              rcases hp2 with ⟨z, hz⟩
              rw [List.append_assoc] at hz
              exact ⟨z, List.append_cancel_left hz⟩
      · intro hp
        exact hp.trans (by simp)
    calc countOccur m ((c :: a') ++ b)
        = (if m <+: (c :: (a' ++ b)) then 1 else 0) + countOccur m (a' ++ b) := rfl
      _ = (if m <+: (c :: a') then 1 else 0) + (countOccur m a' + countOccur m b) := by
          rw [if_congr hiff rfl rfl, ih hns]
      _ = countOccur m (c :: a') + countOccur m b := by
          simp [countOccur]; omega

theorem noSpan_nil (m a : List Char) : NoSpan m a [] := by
  intro k hk _ hc
  have hlen := hc.2.length_le
  rw [List.length_drop] at hlen
  simp at hlen
  omega

theorem noSpan_take_all (m a b : List Char)
    (h : ∀ k, k < m.length → 0 < k → ¬(m.take k) <:+ a) : NoSpan m a b :=
  fun k hk hk0 hc => h k hk hk0 hc.1

theorem noSpan_drop_all (m a b : List Char)
    (h : ∀ k, k < m.length → 0 < k → ¬(m.drop k) <+: b) : NoSpan m a b :=
  fun k hk hk0 hc => h k hk hk0 hc.2

theorem noSpan_right_lit (m a u rest : List Char)
    (h : ∀ k, k < m.length → 0 < k → ¬(m.drop k) <+: u ∧ ¬u <+: (m.drop k)) :
    NoSpan m a (u ++ rest) := by
  intro k hk hk0 hc
  rcases prefix_of_append_cases _ _ _ hc.2 with h1 | h2
  · exact (h k hk hk0).1 h1
  · exact (h k hk hk0).2 h2

theorem str_data_append (a b : String) : (a ++ b).data = a.data ++ b.data := by
  cases a; cases b; rfl

theorem fetchLoop_stop_count (fetch : String → Option String) (files : List TreeNode)
    (st : FetchState) (h : MAX_FILES ≤ st.fetchedFileCount) :
    fetchLoop fetch files st = st := by
  cases files with
  | nil => rfl
  | cons f rest => simp [fetchLoop, h]

theorem fetchLoop_stop_total (fetch : String → Option String) (files : List TreeNode)
    (st : FetchState) (h : MAX_TOTAL_CHARS ≤ st.totalChars) :
    fetchLoop fetch files st = st := by
  cases files with
  | nil => rfl
  | cons f rest =>
    by_cases h1 : MAX_FILES ≤ st.fetchedFileCount
    · simp [fetchLoop, h1]
    · simp [fetchLoop, h1, h]

theorem fetchLoop_skip_none (fetch : String → Option String) (f : TreeNode)
    (rest : List TreeNode) (st : FetchState) (hf : fetch f.path = none) :
    fetchLoop fetch (f :: rest) st = fetchLoop fetch rest st := by
  by_cases h1 : MAX_FILES ≤ st.fetchedFileCount
  · rw [fetchLoop_stop_count _ _ _ h1, fetchLoop_stop_count _ _ _ h1]
  · by_cases h2 : MAX_TOTAL_CHARS ≤ st.totalChars
    · rw [fetchLoop_stop_total _ _ _ h2, fetchLoop_stop_total _ _ _ h2]
    · simp [fetchLoop, hf, h1, h2]

theorem fetchLoop_skip_empty (fetch : String → Option String) (f : TreeNode)
    (rest : List TreeNode) (st : FetchState) (t : String) (hf : fetch f.path = some t)
    (h0 : t.length = 0) :
    fetchLoop fetch (f :: rest) st = fetchLoop fetch rest st := by
  by_cases h1 : MAX_FILES ≤ st.fetchedFileCount
  · rw [fetchLoop_stop_count _ _ _ h1, fetchLoop_stop_count _ _ _ h1]
  · by_cases h2 : MAX_TOTAL_CHARS ≤ st.totalChars
    · rw [fetchLoop_stop_total _ _ _ h2, fetchLoop_stop_total _ _ _ h2]
    · simp [fetchLoop, hf, h0, h1, h2]

theorem fetchLoop_skip_big (fetch : String → Option String) (f : TreeNode)
    (rest : List TreeNode) (st : FetchState) (t : String) (hf : fetch f.path = some t)
    (hbig : MAX_SINGLE_FILE_SIZE < t.length) :
    fetchLoop fetch (f :: rest) st = fetchLoop fetch rest st := by
  have h0 : ¬ t.length = 0 := by
    unfold MAX_SINGLE_FILE_SIZE at hbig; omega
  by_cases h1 : MAX_FILES ≤ st.fetchedFileCount
  · rw [fetchLoop_stop_count _ _ _ h1, fetchLoop_stop_count _ _ _ h1]
  · by_cases h2 : MAX_TOTAL_CHARS ≤ st.totalChars
    · rw [fetchLoop_stop_total _ _ _ h2, fetchLoop_stop_total _ _ _ h2]
    · simp [fetchLoop, hf, h0, h1, h2, hbig]

theorem fetchLoop_accept (fetch : String → Option String) (f : TreeNode)
    (rest : List TreeNode) (st : FetchState) (t : String)
    (hc : st.fetchedFileCount < MAX_FILES) (htot : st.totalChars < MAX_TOTAL_CHARS)
    (hf : fetch f.path = some t) (hne : ¬ t.length = 0)
    (hsz : t.length ≤ MAX_SINGLE_FILE_SIZE) :
    fetchLoop fetch (f :: rest) st =
      fetchLoop fetch rest
        ⟨st.totalChars + t.length, st.fetchedFileCount + 1,
         st.fileContents ++ [wrapFile f.path t]⟩ := by
  simp [fetchLoop, hf, hne, Nat.not_le.mpr hc, Nat.not_le.mpr htot, Nat.not_lt.mpr hsz]

theorem fetchLoop_total_bound (fetch : String → Option String) :
    ∀ (files : List TreeNode) (st : FetchState),
    st.totalChars < MAX_TOTAL_CHARS + MAX_SINGLE_FILE_SIZE →
    (fetchLoop fetch files st).totalChars < MAX_TOTAL_CHARS + MAX_SINGLE_FILE_SIZE := by
  intro files
  induction files with
  | nil => intro st h; exact h
  | cons f rest ih =>
    intro st h
    by_cases h1 : MAX_FILES ≤ st.fetchedFileCount
    · rw [fetchLoop_stop_count _ _ _ h1]; exact h
    · by_cases h2 : MAX_TOTAL_CHARS ≤ st.totalChars
      · rw [fetchLoop_stop_total _ _ _ h2]; exact h
      · cases hf : fetch f.path with
        | none => rw [fetchLoop_skip_none _ _ _ _ hf]; exact ih st h
        | some t =>
          by_cases h0 : t.length = 0
          · rw [fetchLoop_skip_empty _ _ _ _ _ hf h0]; exact ih st h
          · by_cases hbig : MAX_SINGLE_FILE_SIZE < t.length
            · rw [fetchLoop_skip_big _ _ _ _ _ hf hbig]; exact ih st h
            · rw [fetchLoop_accept _ _ _ _ _ (Nat.lt_of_not_le h1) (Nat.lt_of_not_le h2)
                hf h0 (Nat.not_lt.mp hbig)]
              apply ih
              have hlt : st.totalChars < MAX_TOTAL_CHARS := Nat.lt_of_not_le h2
              have hle : t.length ≤ MAX_SINGLE_FILE_SIZE := Nat.not_lt.mp hbig
              show st.totalChars + t.length < MAX_TOTAL_CHARS + MAX_SINGLE_FILE_SIZE
              omega

theorem fetchLoop_small_bodies (fetch : String → Option String) :
    ∀ (files : List TreeNode) (st : FetchState),
    (∀ f ∈ files, ∃ t, fetch f.path = some t ∧ 0 < t.length ∧ t.length < 40000) →
    st.fetchedFileCount ≤ MAX_FILES →
    st.totalChars ≤ st.fetchedFileCount * 39999 →
    (fetchLoop fetch files st).fetchedFileCount =
      min MAX_FILES (st.fetchedFileCount + files.length) ∧
    (fetchLoop fetch files st).fileContents = st.fileContents ++
      (files.take (MAX_FILES - st.fetchedFileCount)).map
        (fun f => wrapFile f.path ((fetch f.path).getD "")) ∧
    (fetchLoop fetch files st).totalChars ≤ (fetchLoop fetch files st).fetchedFileCount * 39999 := by
  intro files
  induction files with
  | nil =>
    intro st _ hc htot
    refine ⟨?_, by simp [fetchLoop], htot⟩
    simp only [fetchLoop, List.length_nil, Nat.add_zero]
    omega
  | cons f rest ih =>
    intro st hf hc htot
    have hf' : ∀ g ∈ rest, ∃ t, fetch g.path = some t ∧ 0 < t.length ∧ t.length < 40000 :=
      fun g hg => hf g (List.mem_cons_of_mem f hg)
    obtain ⟨t, hft, ht0, htlt⟩ := hf f (List.mem_cons_self f rest)
    by_cases hg1 : MAX_FILES ≤ st.fetchedFileCount
    · have hEq : st.fetchedFileCount = MAX_FILES := Nat.le_antisymm hc hg1
      rw [fetchLoop_stop_count _ _ _ hg1]
      refine ⟨?_, ?_, htot⟩
      · rw [hEq]; simp
      · rw [hEq]; simp
    · have hcnt : st.fetchedFileCount < MAX_FILES := Nat.lt_of_not_le hg1
      have hc19 : st.fetchedFileCount ≤ 19 := by
        unfold MAX_FILES at hcnt; omega
      have hg2 : st.totalChars < MAX_TOTAL_CHARS := by
        unfold MAX_TOTAL_CHARS; omega
      rw [fetchLoop_accept _ _ _ _ _ hcnt hg2 hft (by omega)
        (by unfold MAX_SINGLE_FILE_SIZE; omega)]
      obtain ⟨ih1, ih2, ih3⟩ :=
        ih ⟨st.totalChars + t.length, st.fetchedFileCount + 1,
            st.fileContents ++ [wrapFile f.path t]⟩ hf'
          (by show st.fetchedFileCount + 1 ≤ MAX_FILES; omega)
          (by show st.totalChars + t.length ≤ (st.fetchedFileCount + 1) * 39999; omega)
      refine ⟨?_, ?_, ih3⟩
      · rw [ih1]
        show min MAX_FILES (st.fetchedFileCount + 1 + rest.length) =
          min MAX_FILES (st.fetchedFileCount + (rest.length + 1))
        omega
      · rw [ih2]
        show st.fileContents ++ [wrapFile f.path t] ++
            (rest.take (MAX_FILES - (st.fetchedFileCount + 1))).map
              (fun g => wrapFile g.path ((fetch g.path).getD "")) =
          st.fileContents ++ ((f :: rest).take (MAX_FILES - st.fetchedFileCount)).map
              (fun g => wrapFile g.path ((fetch g.path).getD ""))
        have h20 : MAX_FILES - st.fetchedFileCount =
            (MAX_FILES - (st.fetchedFileCount + 1)) + 1 := by omega
        rw [h20, List.take_succ_cons, List.map_cons, hft]
        simp [List.append_assoc]

theorem countOccur_wrapFile (p t : String)
    (hp : countOccur markerChars p.data = 0) (ht : countOccur markerChars t.data = 0) :
    countOccur markerChars (wrapFile p t).data = 1 := by
  have hdata : (wrapFile p t).data =
      wrapPre.data ++ (p.data ++ (wrapMid.data ++ (t.data ++
        (wrapEnd1.data ++ (p.data ++ wrapEnd2.data))))) := by
    simp [wrapFile, str_data_append, List.append_assoc]
  rw [hdata]
  rw [countOccur_append _ _ _ (noSpan_take_all _ _ _ (by decide))]
  rw [countOccur_append _ _ _ (noSpan_right_lit markerChars p.data wrapMid.data _ (by decide))]
  rw [countOccur_append _ _ _ (noSpan_take_all _ _ _ (by decide))]
  rw [countOccur_append _ _ _ (noSpan_right_lit markerChars t.data wrapEnd1.data _ (by decide))]
  rw [countOccur_append _ _ _ (noSpan_take_all _ _ _ (by decide))]
  rw [countOccur_append _ _ _ (noSpan_drop_all _ _ _ (by decide))]
  rw [hp, ht]
  decide

theorem countOccur_joinStrings (ws : List String)
    (h : ∀ w ∈ ws, ∃ p t, w = wrapFile p t ∧ countOccur markerChars p.data = 0 ∧
      countOccur markerChars t.data = 0) :
    countOccur markerChars (joinStrings ws).data = ws.length := by
  induction ws with
  | nil => rfl
  | cons w ws' ih =>
    obtain ⟨p, t, hw, hp, ht⟩ := h w (List.mem_cons_self w ws')
    have hrest : ∀ w₂ ∈ ws', ∃ p₂ t₂, w₂ = wrapFile p₂ t₂ ∧
        countOccur markerChars p₂.data = 0 ∧ countOccur markerChars t₂.data = 0 :=
      fun w₂ hm => h w₂ (List.mem_cons_of_mem w hm)
    have hdata : (joinStrings (w :: ws')).data = w.data ++ (joinStrings ws').data := by
      show (w ++ joinStrings ws').data = _
      exact str_data_append w (joinStrings ws')
    have hns : NoSpan markerChars w.data (joinStrings ws').data := by
      cases ws' with
      | nil => exact noSpan_nil _ _
      | cons w2 ws2 =>
        obtain ⟨p2, t2, hw2, _, _⟩ := hrest w2 (List.mem_cons_self w2 ws2)
        have hd2 : (joinStrings (w2 :: ws2)).data = wrapPre.data ++
            ((p2.data ++ (wrapMid.data ++ (t2.data ++
              (wrapEnd1.data ++ (p2.data ++ wrapEnd2.data))))) ++ (joinStrings ws2).data) := by
          show (w2 ++ joinStrings ws2).data = _
          rw [str_data_append, hw2]
          simp [wrapFile, str_data_append, List.append_assoc]
        rw [hd2]
        exact noSpan_right_lit _ _ _ _ (by decide)
    rw [hdata, countOccur_append _ _ _ hns, hw, countOccur_wrapFile p t hp ht, ih hrest]
    simp [Nat.add_comm]

theorem fetchLoop_goodState (fetch : String → Option String) :
    ∀ (files : List TreeNode) (st : FetchState),
    (∀ f ∈ files, countOccur markerChars f.path.data = 0) →
    (∀ f ∈ files, ∀ t, fetch f.path = some t → countOccur markerChars t.data = 0) →
    st.fetchedFileCount = st.fileContents.length →
    (∀ w ∈ st.fileContents, ∃ p t, w = wrapFile p t ∧
      countOccur markerChars p.data = 0 ∧ countOccur markerChars t.data = 0) →
    (fetchLoop fetch files st).fetchedFileCount =
      (fetchLoop fetch files st).fileContents.length ∧
    ∀ w ∈ (fetchLoop fetch files st).fileContents, ∃ p t, w = wrapFile p t ∧
      countOccur markerChars p.data = 0 ∧ countOccur markerChars t.data = 0 := by
  intro files
  induction files with
  | nil => intro st _ _ h1 h2; exact ⟨h1, h2⟩
  | cons f rest ih =>
    intro st hpaths hbodies h1 h2
    have hpaths' : ∀ g ∈ rest, countOccur markerChars g.path.data = 0 :=
      fun g hg => hpaths g (List.mem_cons_of_mem f hg)
    have hbodies' : ∀ g ∈ rest, ∀ t, fetch g.path = some t →
        countOccur markerChars t.data = 0 :=
      fun g hg => hbodies g (List.mem_cons_of_mem f hg)
    by_cases hg1 : MAX_FILES ≤ st.fetchedFileCount
    · rw [fetchLoop_stop_count _ _ _ hg1]; exact ⟨h1, h2⟩
    · by_cases hg2 : MAX_TOTAL_CHARS ≤ st.totalChars
      · rw [fetchLoop_stop_total _ _ _ hg2]; exact ⟨h1, h2⟩
      · cases hf : fetch f.path with
        | none => rw [fetchLoop_skip_none _ _ _ _ hf]; exact ih st hpaths' hbodies' h1 h2
        | some t =>
          by_cases h0 : t.length = 0
          · rw [fetchLoop_skip_empty _ _ _ _ _ hf h0]
            exact ih st hpaths' hbodies' h1 h2
          · by_cases hbig : MAX_SINGLE_FILE_SIZE < t.length
            · rw [fetchLoop_skip_big _ _ _ _ _ hf hbig]
              exact ih st hpaths' hbodies' h1 h2
            · rw [fetchLoop_accept _ _ _ _ _ (Nat.lt_of_not_le hg1) (Nat.lt_of_not_le hg2)
                hf h0 (Nat.not_lt.mp hbig)]
              apply ih _ hpaths' hbodies'
              · show st.fetchedFileCount + 1 = (st.fileContents ++ [wrapFile f.path t]).length
                simp [h1]
              · intro w hw
                rcases List.mem_append.mp hw with hcase | hcase
                · exact h2 w hcase
                · rw [List.mem_singleton] at hcase
                  subst hcase
                  exact ⟨f.path, t, rfl, hpaths f (List.mem_cons_self f rest),
                    hbodies f (List.mem_cons_self f rest) t hf⟩

theorem bigBody140_length : bigBody140.length = 140000 := by
  show (List.replicate 140000 'x').length = 140000
  exact List.length_replicate 140000 'x'

theorem bigBody200_length : bigBody200.length = 200000 := by
  show (List.replicate 200000 'z').length = 200000
  exact List.length_replicate 200000 'z'

theorem body150k_length : body150k.length = 150000 := by
  show (List.replicate 150000 'y').length = 150000
  exact List.length_replicate 150000 'y'

/-- Claim C1 counterexample: six qualifying files of 140000 characters each
are all accepted, so the sum of included body lengths reaches 840000 and
exceeds the 800000 aggregate cap, refuting the never-exceeds statement. -/
theorem c1_counterexample :
    MAX_TOTAL_CHARS <
      (fetchLoop (fun _ => some bigBody140) filesC1 ⟨0, 0, []⟩).totalChars := by
  have hne : ¬ bigBody140.length = 0 := by rw [bigBody140_length]; omega
  have hsz : bigBody140.length ≤ MAX_SINGLE_FILE_SIZE := by
    rw [bigBody140_length]; unfold MAX_SINGLE_FILE_SIZE; omega
  have step : ∀ (f : TreeNode) (rest : List TreeNode) (tc fc : Nat) (cs : List String),
      fc < 20 → tc < 800000 →
      fetchLoop (fun _ => some bigBody140) (f :: rest) ⟨tc, fc, cs⟩ =
        fetchLoop (fun _ => some bigBody140) rest
          ⟨tc + 140000, fc + 1, cs ++ [wrapFile f.path bigBody140]⟩ := by
    intro f rest tc fc cs hfc htc
    rw [fetchLoop_accept _ _ _ _ bigBody140
      (by show fc < MAX_FILES; unfold MAX_FILES; omega)
      (by show tc < MAX_TOTAL_CHARS; unfold MAX_TOTAL_CHARS; omega) rfl hne hsz,
      bigBody140_length]
  unfold filesC1
  rw [step _ _ _ _ _ (by omega) (by omega)]
  rw [step _ _ _ _ _ (by omega) (by omega)]
  rw [step _ _ _ _ _ (by omega) (by omega)]
  rw [step _ _ _ _ _ (by omega) (by omega)]
  rw [step _ _ _ _ _ (by omega) (by omega)]
  rw [step _ _ _ _ _ (by omega) (by omega)]
  show MAX_TOTAL_CHARS < 0 + 140000 + 140000 + 140000 + 140000 + 140000 + 140000
  unfold MAX_TOTAL_CHARS
  omega

/-- Claim C1 amended: the sum of included body lengths can overshoot the
800000 aggregate cap by strictly less than one per-file cap (so it is
always below 950000); once the running total reaches the cap the loop
stops processing further candidates, and the header then reports
Truncated: Yes (Size Limit). -/
theorem c1_amended (fetch : String → Option String) (files : List TreeNode) :
    (fetchLoop fetch files ⟨0, 0, []⟩).totalChars <
      MAX_TOTAL_CHARS + MAX_SINGLE_FILE_SIZE ∧
    (MAX_TOTAL_CHARS ≤ (fetchLoop fetch files ⟨0, 0, []⟩).totalChars →
      truncatedLabel (fetchLoop fetch files ⟨0, 0, []⟩).totalChars = "Yes (Size Limit)") ∧
    (∀ (rest : List TreeNode) (st : FetchState), MAX_TOTAL_CHARS ≤ st.totalChars →
      fetchLoop fetch rest st = st) := by
  refine ⟨?_, ?_, ?_⟩
  · exact fetchLoop_total_bound fetch files _ (by decide)
  · intro h; unfold truncatedLabel; rw [if_pos h]
  · intro rest st h; exact fetchLoop_stop_total fetch rest st h

/-- Claim C1 witness for the amended statement, at a state already at the
aggregate cap: the loop is a fixed point there. -/
theorem c1_witness :
    fetchLoop (fun _ => none) [⟨"a", "blob", none⟩] ⟨800000, 0, []⟩ =
      ⟨800000, 0, []⟩ :=
  (c1_amended (fun _ => none) []).2.2 [⟨"a", "blob", none⟩] ⟨800000, 0, []⟩ (by decide)

/-- Claim C2 (code bug evidence): with one qualifying candidate whose
every fetch attempt fails, the pipeline returns a header-only bundle as
success. The dead guard result.length below 50 cannot fire: the shortest
possible header is 57 characters, so NoContentRetrieved is unreachable. -/
theorem c2_empty_bundle_returned :
    fetchGithubCode envC2 "https://github.com/a/b" none =
      .ok "// Repository: a/b\n// Analyzed Files: 0\n// Truncated: No\n" := by decide

/-- Claim C3: from 25 qualifying candidates with nonempty bodies well
under the caps and every fetch succeeding, exactly 20 files are included,
in the enumeration order of the candidate list, and the header reports
Truncated: No. -/
theorem c3_twenty_files_in_order (fetch : String → Option String) (files : List TreeNode)
    (hlen : files.length = 25)
    (hf : ∀ f ∈ files, ∃ t, fetch f.path = some t ∧ 0 < t.length ∧ t.length < 40000) :
    (fetchLoop fetch files ⟨0, 0, []⟩).fetchedFileCount = 20 ∧
    (fetchLoop fetch files ⟨0, 0, []⟩).fileContents =
      (files.take 20).map (fun f => wrapFile f.path ((fetch f.path).getD "")) ∧
    truncatedLabel (fetchLoop fetch files ⟨0, 0, []⟩).totalChars = "No" := by
  obtain ⟨h1, h2, h3⟩ :=
    fetchLoop_small_bodies fetch files ⟨0, 0, []⟩ hf (by decide) (by decide)
  have hcount : (fetchLoop fetch files ⟨0, 0, []⟩).fetchedFileCount = 20 := by
    rw [h1, hlen]; decide
  refine ⟨hcount, ?_, ?_⟩
  · rw [h2]
    show [] ++ (files.take (MAX_FILES - 0)).map
        (fun f => wrapFile f.path ((fetch f.path).getD "")) = _
    simp [MAX_FILES]
  · have hlt : (fetchLoop fetch files ⟨0, 0, []⟩).totalChars < MAX_TOTAL_CHARS := by
      rw [hcount] at h3
      unfold MAX_TOTAL_CHARS
      omega
    unfold truncatedLabel
    rw [if_neg (Nat.not_le.mpr hlt)]

/-- Claim C3 witness: 25 identical qualifying candidates with one-character
bodies give a count of exactly 20. -/
theorem c3_witness :
    (fetchLoop (fun _ => some "x") filesC3 ⟨0, 0, []⟩).fetchedFileCount = 20 :=
  (c3_twenty_files_in_order (fun _ => some "x") filesC3 (by simp [filesC3])
    (fun _ _ => ⟨"x", rfl, by decide, by decide⟩)).1

/-- Claim C4: for a locator containing the blob marker or the gist host,
when the raw fetch of the rewritten URL succeeds, the call returns exactly
that raw body, with no header and no markers. -/
theorem c4_blob_gist_identity (env : Env) (url : String) (tok : Option String)
    (body : String)
    (hblob : (jsIncludes url "/blob/" || jsIncludes url "gist.github.com") = true)
    (hfetch : env.rawFetch (rewriteRawUrl url) = .ok body) :
    fetchGithubCode env url tok = .ok body := by
  have hne : ¬ url = "" := by
    intro h
    subst h
    exact absurd hblob (by decide)
  unfold fetchGithubCode
  rw [if_neg hne, if_pos hblob, hfetch]

/-- Claim C4 witness: a concrete blob URL whose rewritten raw URL is
served by the environment. -/
theorem c4_witness :
    fetchGithubCode envC4 "https://github.com/o/r/blob/main/x.ts" none =
      .ok "hello-world" :=
  c4_blob_gist_identity envC4 "https://github.com/o/r/blob/main/x.ts" none
    "hello-world" (by decide) (by decide)

/-- Claim C5: the sum of included body lengths never reaches the aggregate
cap plus the per-file cap: the aggregate cap is pre-checked before each
fetch, and each accepted body is at most the per-file cap. -/
theorem c5_overshoot_bound (fetch : String → Option String) (files : List TreeNode) :
    (fetchLoop fetch files ⟨0, 0, []⟩).totalChars <
      MAX_TOTAL_CHARS + MAX_SINGLE_FILE_SIZE :=
  fetchLoop_total_bound fetch files _ (by decide)

/-- Claim C6: a candidate with no declared size passes the size part of
the tree filter, and when its fetched body exceeds the per-file cap it is
discarded after the fetch: the loop state is exactly as if the file had
never been offered, so it changes no counter and adds nothing. -/
theorem c6_oversize_discarded (fetch : String → Option String) (p : String)
    (rest : List TreeNode) (st : FetchState) (t : String)
    (hfetch : fetch p = some t) (hbig : MAX_SINGLE_FILE_SIZE < t.length) :
    nodePasses ⟨p, "blob", none⟩ = (isCodeFile p && !isIgnoredDir p) ∧
    fetchLoop fetch (⟨p, "blob", none⟩ :: rest) st = fetchLoop fetch rest st := by
  constructor
  · simp [nodePasses]
  · exact fetchLoop_skip_big _ _ _ _ _ hfetch hbig

/-- Claim C6 witness: a 200000-character body on a size-less candidate is
discarded post-fetch. -/
theorem c6_witness :
    fetchLoop (fun _ => some bigBody200) [⟨"big.ts", "blob", none⟩] ⟨0, 0, []⟩ =
      fetchLoop (fun _ => some bigBody200) [] ⟨0, 0, []⟩ :=
  (c6_oversize_discarded (fun _ => some bigBody200) "big.ts" [] ⟨0, 0, []⟩ bigBody200
    rfl (by rw [bigBody200_length]; decide)).2

/-- Claim C7 counterexample: a single included file whose body is itself
the literal marker text makes the body contain two occurrences of the
marker while the analyzed-files count is one, refuting the equality as
stated. -/
theorem c7_counterexample :
    ¬(countOccur markerChars
        (joinStrings (fetchLoop (fun _ => some "--- START OF FILE")
          [⟨"a", "blob", none⟩] ⟨0, 0, []⟩).fileContents).data =
      (fetchLoop (fun _ => some "--- START OF FILE")
        [⟨"a", "blob", none⟩] ⟨0, 0, []⟩).fetchedFileCount) := by decide

/-- Claim C7 amended: provided no candidate path and no fetched body
contains the literal marker text, the number of marker occurrences in the
assembled body equals the analyzed-files count printed in the header. -/
theorem c7_amended (fetch : String → Option String) (files : List TreeNode)
    (hpaths : ∀ f ∈ files, countOccur markerChars f.path.data = 0)
    (hbodies : ∀ f ∈ files, ∀ t, fetch f.path = some t →
      countOccur markerChars t.data = 0) :
    countOccur markerChars
      (joinStrings (fetchLoop fetch files ⟨0, 0, []⟩).fileContents).data =
    (fetchLoop fetch files ⟨0, 0, []⟩).fetchedFileCount := by
  obtain ⟨h1, h2⟩ :=
    fetchLoop_goodState fetch files ⟨0, 0, []⟩ hpaths hbodies rfl (by simp)
  rw [countOccur_joinStrings _ h2, h1]

/-- Claim C7 witness: one marker-free file gives one occurrence and a
count of one. -/
theorem c7_witness :
    countOccur markerChars
      (joinStrings (fetchLoop (fun _ => some "body") [⟨"p", "blob", none⟩]
        ⟨0, 0, []⟩).fileContents).data =
    (fetchLoop (fun _ => some "body") [⟨"p", "blob", none⟩]
      ⟨0, 0, []⟩).fetchedFileCount :=
  c7_amended (fun _ => some "body") [⟨"p", "blob", none⟩] (by decide)
    (by
      intro f _ t ht
      simp only [Option.some.injEq] at ht
      subst ht
      decide)

/-- Claim C8 counterexample: a whitespace-only locator is truthy in JS, so
it passes the up-front check and fails later in URL parsing; the resulting
error is neither of the two InvalidLocator failures of the source (the
URL-required check and the owner-repo form check). -/
theorem c8_counterexample :
    fetchGithubCode envBase " " none = .error .urlParseError ∧
    GithubError.urlParseError ≠ GithubError.urlRequired ∧
    GithubError.urlParseError ≠ GithubError.invalidRepoUrl :=
  ⟨by decide, by decide, by decide⟩

/-- Claim C8 amended: only the empty locator fails through the up-front
InvalidLocator check; a nonempty whitespace-only locator is not caught
there and instead fails with the URL-parser error, since whitespace-only
text contains neither the blob marker nor the gist host and is rejected by
the URL parser. -/
theorem c8_amended (env : Env) (tok : Option String) :
    fetchGithubCode env "" tok = .error .urlRequired ∧
    (∀ u : String, ¬ u = "" → (∀ c ∈ u.data, c.isWhitespace = true) →
      env.urlPathname u = none → fetchGithubCode env u tok = .error .urlParseError) := by
  constructor
  · unfold fetchGithubCode; rw [if_pos rfl]
  · intro u hne hws hpath
    have hb1 : jsIncludes u "/blob/" = false := by
      unfold jsIncludes
      apply decide_eq_false
      intro hinf
      have hmem : '/' ∈ u.data := hinf.subset (by decide)
      exact absurd (hws '/' hmem) (by decide)
    have hb2 : jsIncludes u "gist.github.com" = false := by
      unfold jsIncludes
      apply decide_eq_false
      intro hinf
      have hmem : 'g' ∈ u.data := hinf.subset (by decide)
      exact absurd (hws 'g' hmem) (by decide)
    unfold fetchGithubCode
    rw [if_neg hne]
    simp [hb1, hb2, hpath]

/-- Claim C8 witness: a single-space locator against an environment whose
URL parser rejects everything. -/
theorem c8_witness : fetchGithubCode envBase " " none = .error .urlParseError :=
  (c8_amended envBase none).2 " " (by decide) (by decide) rfl

/-- Claim C9: the pre-fetch and post-fetch per-file size checks disagree
at the boundary: a declared size of exactly 150000 is rejected by the tree
filter (strictly-below test), while an undeclared-size candidate whose
fetched body is exactly 150000 characters passes the post-fetch check
(strictly-above test) and is included. -/
theorem c9_boundary_disagreement :
    nodePasses ⟨"a.ts", "blob", some 150000⟩ = false ∧
    (fetchLoop (fun _ => some body150k) [⟨"a.ts", "blob", none⟩]
      ⟨0, 0, []⟩).fetchedFileCount = 1 := by
  constructor
  · decide
  · rw [fetchLoop_accept _ _ _ _ body150k (by decide) (by decide) rfl
      (by rw [body150k_length]; decide) (by rw [body150k_length]; decide)]
    rfl

/-- Claim C10: a fetch that succeeds with an empty body is JS-falsy and is
treated exactly like a failed fetch: the candidate is skipped and the loop
state passed to the remaining candidates is unchanged. -/
theorem c10_empty_body_skipped (fetch : String → Option String) (f : TreeNode)
    (rest : List TreeNode) (st : FetchState) (hf : fetch f.path = some "") :
    fetchLoop fetch (f :: rest) st = fetchLoop fetch rest st :=
  fetchLoop_skip_empty fetch f rest st "" hf rfl

/-- Claim C10 witness: an empty body on a concrete candidate is skipped. -/
theorem c10_witness :
    fetchLoop (fun _ => some "") [⟨"a", "blob", none⟩] ⟨0, 0, []⟩ =
      fetchLoop (fun _ => some "") [] ⟨0, 0, []⟩ :=
  c10_empty_body_skipped (fun _ => some "") ⟨"a", "blob", none⟩ [] ⟨0, 0, []⟩ rfl

end CodeIntoClear
